import Mathlib

/-
Verification development for the storage-engine core of the Arcturus
repository: paged files, buffer pool, record manager, and B+-tree index.

Each namespace below is a shallow embedding of one Rust module:

  * `Arcturus.RM`  — src/record_management/record_file_handle.rs
  * `Arcturus.PF`  — src/page_management/page_file.rs
  * `Arcturus.BM`  — src/page_management/buffer_manager.rs
  * `Arcturus.IX`  — src/indexing/index_handle.rs

Modelling conventions, used throughout:

  * Machine integers are modelled as `Nat` (or `Int` for signed values such
    as the buffer pool's `i32` list links), with explicit wrapping where the
    source can overflow.
  * Structs are Lean structures.  Byte regions that the Rust code addresses
    with raw-pointer offset arithmetic (a record page's bitmap and record
    slots) are modelled as a byte map `Nat → Nat` indexed by the same
    offsets the source computes; struct-header fields that live in the
    first bytes of a page are modelled as structure fields.  C struct
    layout/padding is not modelled (the source relies on unspecified
    `repr(Rust)` layout).
  * A page store is a total function `Nat → Page`; disk I/O therefore never
    fails inside the model.  Where a claim is about I/O failure, the
    outcome of the underlying `write_at` call is passed in as an oracle
    argument.
  * `&mut self` methods become state-passing functions.  A method that can
    return an error after having mutated state returns `State × Except e α`
    so that the error-path state stays observable, matching Rust where an
    early `return Err(..)` does not roll back earlier writes.
  * Loops without a structural bound take an explicit fuel argument; fuel
    exhaustion is reported as a distinguished error and corresponds to the
    source not returning.
-/

namespace Arcturus

/-- Pointwise update of a total map, used to model in-place mutation. -/
def upd {α : Type} (f : Nat → α) (k : Nat) (v : α) : Nat → α :=
  fun q => if q = k then v else f q

namespace RM

/-- RID (record_file_handle.rs lines 14-18): `{page_num: u32, slot_num: usize}`. -/
structure RID where
  page_num : Nat
  slot_num : Nat
  deriving DecidableEq, Repr

/-- Record (record_file_handle.rs lines 20-24).  The `data: *mut u8` buffer of
`record_size` bytes is modelled as the list of bytes it holds. -/
structure Record where
  rid : RID
  record_size : Nat
  data : List Nat
  deriving DecidableEq, Repr

/-- RecordFileHeader (record_file_handle.rs lines 36-43). -/
structure FileHeader where
  record_size : Nat
  bitmap_offset : Nat
  bitmap_size : Nat
  records_offset : Nat
  num_records_per_page : Nat
  num_pages : Nat
  deriving DecidableEq, Repr

/-- One record page.  `num_records` and `next_free` are the
RecordPageHeader fields (record_file_handle.rs lines 47-50), which occupy
the first `size_of::<RecordPageHeader>() = bitmap_offset` bytes of the
page; `bytes` models the page bytes from that point on (bitmap and record
slots), indexed by the same offsets the source computes
(`bitmap_offset + i` and `records_offset + slot * record_size`). -/
structure RecPage where
  num_records : Nat
  next_free : Nat
  bytes : Nat → Nat

/-- State of a `RecordFileHandle` together with the page-file and
buffer-pool state it acts on.  `free` is `RecordFileHandle::free`
(record_file_handle.rs line 55); `pf_free`, `pf_num_pages`, `pf_file_num`
are the `PageFileHeader` fields and `pf_next_free` the per-page
`PageHeader.next_free` used by `allocate_page` (page_file.rs).  `pins` and
`dirty` model the buffer pool's per-page pin counts and dirty bits; pages
are always available in this memory-level model, so `get_page` cannot
fail. -/
structure State where
  hdr : FileHeader
  free : Nat
  pages : Nat → RecPage
  pf_next_free : Nat → Nat
  pf_free : Nat
  pf_num_pages : Nat
  pf_file_num : Nat
  pins : Nat → Nat
  dirty : Nat → Bool

/-- RecordError variants used by the record module (errors/mod.rs). -/
inductive RecordError where
  | BitSet
  | BitUnset
  | FullPage
  deriving DecidableEq, Repr

/-- Errors surfaced by `RecordFileHandle` methods (errors/mod.rs), plus the
two model-level outcomes: `PanicNumRecords` for the `panic!` in
`insert_record` (line 204) and `OutOfFuel` for a non-terminating loop. -/
inductive RmError where
  | SetBitmapError
  | FindFreeSlotError
  | PanicNumRecords
  | OutOfFuel
  deriving DecidableEq, Repr

/-- BufferManager::get_page for a resident page, as used through
`PageFileHandle::get_page` (page_file.rs lines 394-404): pins the page.
The returned data pointer is modelled by reading `st.pages p`. -/
def getPage (st : State) (p : Nat) : State :=
  { st with pins := upd st.pins p (st.pins p + 1) }

/-- BufferManager::unpin (buffer_manager.rs lines 508-530), as used through
`PageFileHandle::unpin_page`: a zero pin count is left unchanged (the
source only logs), otherwise the count is decremented.  The LRU relink is
part of the `BM` model, not of this record-level model. -/
def bmUnpin (st : State) (p : Nat) : State :=
  if st.pins p = 0 then st
  else { st with pins := upd st.pins p (st.pins p - 1) }

/-- PageFileHandle::unpin_page (page_file.rs lines 411-418).  The wrapped
`BufferManager::unpin` returns unit, so no error can surface. -/
def unpinPage (st : State) (p : Nat) : State :=
  bmUnpin st p

/-- Modelled from the spec: `mark_dirty(page_id)` sets the frame's dirty
bit.  `PageFileHandle::mark_dirty` (page_file.rs lines 420-427) calls
`BufferManager::mark_dirty`, which is absent from the checked-in buffer
manager; only `BufferPage::mark_dirty` (set the flag) exists. -/
def markDirty (st : State) (p : Nat) : State :=
  { st with dirty := upd st.dirty p true }

/-- PageFileHandle::unpin_dirty_page (page_file.rs lines 429-437). -/
def unpinDirtyPage (st : State) (p : Nat) : State :=
  unpinPage (markDirty st p) p

/-- Replace one page of the store, modelling writes through the pinned
page's data pointer. -/
def setPage (st : State) (p : Nat) (pg : RecPage) : State :=
  { st with pages := upd st.pages p pg }

/-- Byte-level `std::ptr::copy(src, data.offset(off), count)` into a page:
bytes `[off, off+count)` are replaced by `src 0, src 1, ...`. -/
def copyIn (pg : RecPage) (off count : Nat) (src : Nat → Nat) : RecPage :=
  { pg with bytes := fun a => if off ≤ a ∧ a < off + count then src (a - off) else pg.bytes a }

/-- A caller-supplied record buffer viewed as a byte source. -/
def listSrc (d : List Nat) : Nat → Nat :=
  fun i => d.getD i 0

/-- RecordFileHandle::get_record_offset (record_file_handle.rs
lines 325-327). -/
def getRecordOffset (hdr : FileHeader) (slot : Nat) : Nat :=
  hdr.records_offset + slot * hdr.record_size

/-- RecordFileHandle::set_bitmap (record_file_handle.rs lines 279-305).
The comparison `bit == 1` of the source (rather than `bit != 0`) is kept
as written. -/
def setBitmap (hdr : FileHeader) (pg : RecPage) (slot : Nat) (set : Bool) :
    Except RecordError RecPage :=
  let moder := slot / 8
  let remainder := slot - moder * 8
  let num := pg.bytes (hdr.bitmap_offset + moder)
  let bit := num &&& (1 <<< (7 - remainder))
  if set ∧ bit = 1 then .error .BitSet
  else if (¬ set) ∧ bit = 0 then .error .BitUnset
  else
    let num2 := if set then num ||| (1 <<< (7 - remainder))
                else num &&& (255 ^^^ (1 <<< (7 - remainder)))
    .ok { pg with bytes := upd pg.bytes (hdr.bitmap_offset + moder) num2 }

/-- Loop body of RecordFileHandle::find_free_slot (record_file_handle.rs
lines 307-322), scanning slots `i, i+1, ...` with `rem` iterations left.
On success the bit is set in place (with `+=`, as in the source) and the
slot index returned. -/
def findFreeSlotAux (hdr : FileHeader) (pg : RecPage) (i : Nat) :
    Nat → Option (Nat × RecPage)
  | 0 => none
  | rem + 1 =>
    let index := i / 8
    let off := i - index * 8
    let b := pg.bytes (hdr.bitmap_offset + index)
    if b &&& (1 <<< (7 - off)) = 0 then
      some (i, { pg with bytes := upd pg.bytes (hdr.bitmap_offset + index) (b + (1 <<< (7 - off))) })
    else
      findFreeSlotAux hdr pg (i + 1) rem

/-- RecordFileHandle::find_free_slot: scan `0 .. num_records_per_page`;
`none` models `Err(RecordError::FullPage)`. -/
def findFreeSlot (hdr : FileHeader) (pg : RecPage) : Option (Nat × RecPage) :=
  findFreeSlotAux hdr pg 0 hdr.num_records_per_page

/-- PageFileHandle::allocate_page (page_file.rs lines 304-360) as seen by
the record module.  Both branches end with `next_free = 0`, the page
header rewritten and the payload past the `PageHeader` zeroed; the buffer
frame is pinned and marked dirty.  The modelled fresh page has
`num_records = p`: the source leaves the zeroed payload's first bytes
aliased with `PageHeader{page_num, next_free}`, so under the declared
little-endian layout the `usize` read as `num_records` equals the page
number; `insert_record` overwrites it (with `= 1`, not `+= 1`) before any
other read. -/
def allocatePage (st : State) : Nat × State :=
  if st.pf_free > 0 then
    let p := st.pf_free
    let st1 := getPage st p
    let st2 := { st1 with pf_free := st1.pf_next_free p }
    let st3 := { st2 with
      pages := upd st2.pages p { num_records := p, next_free := 0, bytes := fun _ => 0 },
      pf_next_free := upd st2.pf_next_free p 0 }
    (p, markDirty st3 p)
  else
    let p := (st.pf_file_num <<< 16) ||| (st.pf_num_pages % 4294967296)
    let st1 := { st with pf_num_pages := st.pf_num_pages + 1 }
    let st2 := getPage st1 p
    let st3 := { st2 with
      pages := upd st2.pages p { num_records := p, next_free := 0, bytes := fun _ => 0 },
      pf_next_free := upd st2.pf_next_free p 0 }
    (p, markDirty st3 p)

/-- RecordFileHandle::get_record (record_file_handle.rs lines 106-126):
pin the page, copy `record_size` bytes from the slot into a fresh buffer,
unpin (not dirtying), return the record. -/
def getRecord (st : State) (rid : RID) : Record × State :=
  let st1 := getPage st rid.page_num
  let off := getRecordOffset st1.hdr rid.slot_num
  let data := (List.range st1.hdr.record_size).map
    (fun i => (st1.pages rid.page_num).bytes (off + i))
  let st2 := unpinPage st1 rid.page_num
  ({ rid := rid, record_size := st1.hdr.record_size, data := data }, st2)

/-- RecordFileHandle::update_record (record_file_handle.rs lines 128-148):
pin, copy `rec.record_size` bytes of `rec.data` into the slot, unpin
dirty.  No bitmap check is performed by the source. -/
def updateRecord (st : State) (rec : Record) : State :=
  let rid := rec.rid
  let st1 := getPage st rid.page_num
  let off := getRecordOffset st1.hdr rid.slot_num
  let st2 := setPage st1 rid.page_num
    (copyIn (st1.pages rid.page_num) off rec.record_size (listSrc rec.data))
  unpinDirtyPage st2 rid.page_num

/-- RecordFileHandle::delete_record (record_file_handle.rs lines 150-180):
pin; zero the slot bytes; clear the bitmap bit (erroring with
`SetBitmapError` after unpinning dirty if the bit was not set); decrement
`num_records`; unconditionally link the page at the head of the free-page
chain; unpin dirty.  The error-path state is returned alongside the
error. -/
def deleteRecord (st : State) (rid : RID) : State × Except RmError Unit :=
  let st1 := getPage st rid.page_num
  let off := getRecordOffset st1.hdr rid.slot_num
  let st2 := setPage st1 rid.page_num
    (copyIn (st1.pages rid.page_num) off st1.hdr.record_size (fun _ => 0))
  match setBitmap st2.hdr (st2.pages rid.page_num) rid.slot_num false with
  | .error _ => (unpinDirtyPage st2 rid.page_num, .error .SetBitmapError)
  | .ok pg =>
    let pg2 := { pg with num_records := pg.num_records - 1, next_free := st2.free }
    let st3 := setPage st2 rid.page_num pg2
    let st4 := { st3 with free := rid.page_num }
    (unpinDirtyPage st4 rid.page_num, .ok ())

/-- The page-finding phase of RecordFileHandle::insert_record
(record_file_handle.rs lines 187-247): walk the free-page chain, skipping
and unlinking full pages, until a page with a free slot is found (the slot
bit is set by `find_free_slot`); if the chain empties, allocate a fresh
page and make it the chain head.  Returns the pinned page, the chosen
slot, and the `new_page` flag. -/
def insertFind (hdr : FileHeader) : State → Nat → Except RmError ((Nat × Nat × Bool) × State)
  | _, 0 => .error .OutOfFuel
  | st, fuel + 1 =>
    if st.free = 0 then
      let p := (allocatePage st).1
      let st2 := { (allocatePage st).2 with free := p }
      match findFreeSlot hdr (st2.pages p) with
      | some (slot, pg) => .ok ((p, slot, true), setPage st2 p pg)
      | none => .error .FindFreeSlotError
    else
      let p := st.free
      let st1 := getPage st p
      let pg := st1.pages p
      if pg.num_records > hdr.num_records_per_page then .error .PanicNumRecords
      else if pg.num_records = hdr.num_records_per_page then
        let pgCut := { pg with next_free := 0 }
        let st2 := { st1 with free := pg.next_free, pages := upd st1.pages p pgCut }
        insertFind hdr (unpinDirtyPage st2 p) fuel
      else
        match findFreeSlot hdr pg with
        | some (slot, pg2) => .ok ((p, slot, false), setPage st1 p pg2)
        | none => .error .FindFreeSlotError

/-- RecordFileHandle::insert_record (record_file_handle.rs lines 187-274):
find a page and slot, copy `record_size` bytes of `data` into the slot,
set `num_records` (to 1 on a fresh page, else incremented), unpin dirty,
and return the RID. -/
def insertRecord (st : State) (d : List Nat) (fuel : Nat) : Except RmError (RID × State) :=
  match insertFind st.hdr st fuel with
  | .error e => .error e
  | .ok ((p, slot, isNew), st1) =>
    let off := getRecordOffset st1.hdr slot
    let st2 := setPage st1 p (copyIn (st1.pages p) off st1.hdr.record_size (listSrc d))
    let pg := st2.pages p
    let pg2 := if isNew then { pg with num_records := 1 }
               else { pg with num_records := pg.num_records + 1 }
    let st3 := setPage st2 p pg2
    .ok (⟨p, slot⟩, unpinDirtyPage st3 p)

end RM

namespace PF

/-- One page as the page-file layer sees it: the PageHeader fields
(page_file.rs lines 78-82) plus the payload bytes behind them. -/
structure PFPage where
  page_num : Nat
  next_free : Nat
  payload : Nat → Nat

/-- Error variants of `crate::errors::Error` surfaced by PageFileHandle. -/
inductive PfError where
  | GetPageError
  | AllocatePageError
  | UnpinPageError
  | MarkDirtyError
  | PageDisposed
  deriving DecidableEq, Repr

/-- State of a `PageFileHandle` (page_file.rs lines 235-240) together with
the page store and buffer-pool bookkeeping it acts on: `file_num`,
`num_pages`, `free` are the `PageFileHeader` fields; `pins`/`dirty` the
per-page buffer-pool state. -/
structure State where
  file_num : Nat
  num_pages : Nat
  free : Nat
  header_changed : Bool
  pages : Nat → PFPage
  pins : Nat → Nat
  dirty : Nat → Bool

/-- BufferManager::get_page for this memory-level model: pin the page. -/
def getPage (st : State) (p : Nat) : State :=
  { st with pins := upd st.pins p (st.pins p + 1) }

/-- BufferManager::unpin (buffer_manager.rs lines 508-530): a zero pin
count is only logged; otherwise decrement.  LRU relinking lives in the
`BM` model. -/
def bmUnpin (st : State) (p : Nat) : State :=
  if st.pins p = 0 then st
  else { st with pins := upd st.pins p (st.pins p - 1) }

/-- Modelled from the spec: `mark_dirty(page_id)` sets the frame's dirty
bit; the `BufferManager::mark_dirty` that page_file.rs lines 420-427 call
is absent from the checked-in buffer manager. -/
def markDirty (st : State) (p : Nat) : State :=
  { st with dirty := upd st.dirty p true }

/-- PageFileHandle::unpin_page (page_file.rs lines 411-418). -/
def unpinPage (st : State) (p : Nat) : State :=
  bmUnpin st p

/-- PageFileHandle::unpin_dirty_page (page_file.rs lines 429-437). -/
def unpinDirtyPage (st : State) (p : Nat) : State :=
  unpinPage (markDirty st p) p

/-- PageFileHandle::get_page_num (page_file.rs lines 439-441):
`(file_num << 16) | (page_index as u32)`. -/
def getPageNum (st : State) (page_index : Nat) : Nat :=
  (st.file_num <<< 16) ||| (page_index % 4294967296)

/-- Common tail of PageFileHandle::allocate_page (page_file.rs
lines 347-359): rewrite the PageHeader (`next_free = 0`, `page_num`), set
`header_changed`, zero the payload, mark the page dirty.  The page stays
pinned. -/
def allocFinish (st : State) (p : Nat) : State :=
  let st1 := { st with
    pages := upd st.pages p { page_num := p, next_free := 0, payload := fun _ => 0 },
    header_changed := true }
  markDirty st1 p

/-- PageFileHandle::allocate_page (page_file.rs lines 304-360): pop the
freelist head if `free > 0` (reading the popped page's `next_free` into
the header), otherwise mint page number `(file_num << 16) | num_pages` and
increment `num_pages`; then initialize the page. -/
def allocatePage (st : State) : Nat × State :=
  if st.free > 0 then
    let p := st.free
    let st1 := getPage st p
    let st2 := { st1 with header_changed := true, free := (st1.pages p).next_free }
    (p, allocFinish st2 p)
  else
    let p := getPageNum st st.num_pages
    let st1 := { st with num_pages := st.num_pages + 1 }
    let st2 := getPage st1 p
    (p, allocFinish st2 p)

/-- PageFileHandle::dispose_page (page_file.rs lines 367-392): pin the
page; if its `next_free` is nonzero return `Err(PageDisposed)` — note the
source returns without unpinning on this path; otherwise push the page on
the freelist, mark dirty, unpin.  The state is returned alongside the
result so the error-path state stays observable. -/
def disposePage (st : State) (p : Nat) : State × Except PfError Unit :=
  let st1 := getPage st p
  if (st1.pages p).next_free ≠ 0 then (st1, .error .PageDisposed)
  else
    let pg := st1.pages p
    let st2 := { st1 with pages := upd st1.pages p { pg with next_free := st1.free } }
    let st3 := { st2 with free := p, header_changed := true }
    let st4 := markDirty st3 p
    (bmUnpin st4 p, .ok ())

/-- Dispose a list of pages in order, stopping at the first error. -/
def disposeList (st : State) : List Nat → State × Except PfError Unit
  | [] => (st, .ok ())
  | p :: ps =>
    match disposePage st p with
    | (st1, .ok _) => disposeList st1 ps
    | (st1, .error e) => (st1, .error e)

/-- Call `allocate_page` `n` times, collecting the returned page ids. -/
def allocateN (st : State) : Nat → List Nat × State
  | 0 => ([], st)
  | n + 1 =>
    ((allocatePage st).1 :: (allocateN (allocatePage st).2 n).1,
     (allocateN (allocatePage st).2 n).2)

/-- The freelist starting at `head` consists exactly of the pages in `l`,
threaded through `PageHeader.next_free` and terminated by 0. -/
def isChain (st : State) (head : Nat) : List Nat → Prop
  | [] => head = 0
  | q :: rest => head = q ∧ q ≠ 0 ∧ isChain st ((st.pages q).next_free) rest

end PF

namespace BM

/-- BufferPage (buffer_manager.rs lines 48-57).  `dataSet` models whether
the `data` pointer is null; `data` the buffer contents; `hasFp` whether
the `fp: Option<File>` is present. -/
structure Frame where
  dataSet : Bool
  data : List Nat
  next : Int
  prev : Int
  dirty : Bool
  pin_count : Nat
  page_num : Nat
  hasFp : Bool
  deriving DecidableEq, Repr

/-- BufferManager (buffer_manager.rs lines 127-139).  `cap` is
`buffer_table.len()`; `frames` the table; `page_table` the page map. -/
structure State where
  cap : Nat
  num_pages : Nat
  page_size : Nat
  first : Int
  last : Int
  free : Int
  frames : Nat → Frame
  page_table : Nat → Option Nat

/-- `size_of::<PageFileHeader>()` with the default Rust layout of
`{u16, usize, u32}` (16 bytes).  Only the offset formula
`header_size + slot * page_size` matters to the claims. -/
def pageFileHeaderSize : Nat := 16

/-- `usize::MAX` on a 64-bit target. -/
def usizeMax : Nat := 18446744073709551615

/-- An `i32` cast `as usize` (sign-extending, as in `self.last as usize`
and `page.prev as usize`). -/
def intToUsize (i : Int) : Nat :=
  (i.emod 18446744073709551616).toNat

/-- PageFileError variants used by the buffer manager (errors/mod.rs). -/
inductive PageFileError where
  | Okay
  | NoPage
  | OutOfIndex
  | PagePinned
  | PageFreed
  | NoFilePointer
  | DataUnintialized
  | WriteAtError
  | IncompleteWrite
  deriving DecidableEq, Repr

/-- Outcome of the operating-system `fp.write_at` call: number of bytes
written, or an OS error.  Passed to the model as an oracle. -/
inductive WriteOutcome where
  | wrote (n : Nat)
  | osError
  deriving DecidableEq, Repr

/-- BufferManager::get_page_offset (buffer_manager.rs lines 193-195):
`size_of::<PageFileHeader>() + index * page_size`. -/
def getPageOffset (st : State) (index : Nat) : Nat :=
  pageFileHeaderSize + index * st.page_size

/-- BufferManager::write_page (buffer_manager.rs lines 241-267): null data
is `DataUnintialized`; else `write_at` the frame's buffer at the offset of
file-slot `page_num & 0xffff`; an OS error is `WriteAtError`, a short
write `IncompleteWrite`, else `Okay`.  The second component records the
write actually issued (offset and buffer), `none` when `write_at` was not
invoked. -/
def writePage (st : State) (page_num index : Nat) (w : WriteOutcome) :
    PageFileError × Option (Nat × List Nat) :=
  let fpi := page_num % 65536
  let frame := st.frames index
  if frame.dataSet = false then (.DataUnintialized, none)
  else
    match w with
    | .osError => (.WriteAtError, some (getPageOffset st fpi, frame.data))
    | .wrote n =>
      if n < st.page_size then (.IncompleteWrite, some (getPageOffset st fpi, frame.data))
      else (.Okay, some (getPageOffset st fpi, frame.data))

/-- BufferManager::unlink (buffer_manager.rs lines 326-345): remove frame
`index` from the LRU list. -/
def unlink (st : State) (index : Nat) : State :=
  let page := st.frames index
  let st1 :=
    if page.prev = -1 then { st with first := page.next }
    else
      let pi := intToUsize page.prev
      { st with frames := upd st.frames pi { st.frames pi with next := page.next } }
  if page.next = -1 then { st1 with last := page.prev }
  else
    let ni := intToUsize page.next
    { st1 with frames := upd st1.frames ni { st1.frames ni with prev := page.prev } }

/-- Eviction tail of BufferManager::free_page (buffer_manager.rs
lines 302-320): unlink from the LRU list, zero the buffer, drop the page
from the page table, reset the frame, push it on the free-frame list,
decrement `num_pages`. -/
def freeFinish (st : State) (index : Nat) : State :=
  let st1 := unlink st index
  let page := st1.frames index
  let page2 := { page with
    data := page.data.map (fun _ => 0),
    dirty := false,
    page_num := 0,
    next := st1.free,
    prev := -1,
    hasFp := false }
  { st1 with
    frames := upd st1.frames index page2,
    page_table := fun q => if q = page.page_num then none else st1.page_table q,
    free := (index : Int),
    num_pages := st1.num_pages - 1 }

/-- BufferManager::free_page (buffer_manager.rs lines 273-321): guard
checks (`NoPage` for a `-1 as usize` index, `OutOfIndex`, `PagePinned`,
`PageFreed`), then — only if the frame is dirty — write the page back via
`write_page`, aborting with the write error and an unchanged pool state if
it did not return `Okay`; finally evict.  The third component is the write
event of `write_page` (`none` when no write was attempted). -/
def freePage (st : State) (index : Nat) (w : WriteOutcome) :
    PageFileError × State × Option (Nat × List Nat) :=
  if index = usizeMax then (.NoPage, st, none)
  else if index > st.cap then (.OutOfIndex, st, none)
  else
    let page := st.frames index
    if page.pin_count ≠ 0 then (.PagePinned, st, none)
    else if intToUsize st.first ≠ index ∧ page.prev = -1 then (.PageFreed, st, none)
    else if page.dirty then
      if page.hasFp = false then (.NoFilePointer, st, none)
      else
        match writePage st page.page_num index w with
        | (.Okay, evt) => (.Okay, freeFinish st index, evt)
        | (e, evt) => (e, st, evt)
    else (.Okay, freeFinish st index, none)

/-- BufferManager::link (buffer_manager.rs lines 347-363): insert frame
`index` at the head of the LRU list. -/
def link (st : State) (index : Nat) : State :=
  let st1 : State := { st with frames := upd st.frames index { st.frames index with next := st.first } }
  let st2 : State :=
    if st.first ≠ -1 then
      let fi := intToUsize st.first
      { st1 with frames := upd st1.frames fi { st1.frames fi with prev := (index : Int) } }
    else st1
  let st3 : State := { st2 with first := (index : Int) }
  if st3.last = -1 then { st3 with last := (index : Int) } else st3

/-- BufferManager::unpin (buffer_manager.rs lines 508-530): a non-resident
page and an already-unpinned frame are only logged, leaving the state
unchanged (the function returns unit, so neither condition reaches the
caller); otherwise the pin count is decremented and the frame is linked at
the head of the LRU list exactly when the count reaches 0. -/
def unpin (st : State) (page_num : Nat) : State :=
  match st.page_table page_num with
  | none => st
  | some index =>
    let page := st.frames index
    if page.pin_count = 0 then st
    else
      let st1 := { st with frames := upd st.frames index { page with pin_count := page.pin_count - 1 } }
      if page.pin_count - 1 = 0 then link st1 index else st1

/-- PageFileHandle::unpin_page (page_file.rs lines 411-418) over the
buffer-manager state: it forwards to `BufferManager::unpin`, whose unit
return type makes the `Err` branch of the wrapper unreachable, so the
caller always receives `Ok(())`. -/
def unpinPage (st : State) (page_num : Nat) : State × Except PF.PfError Unit :=
  (unpin st page_num, .ok ())

end BM

namespace IX

/-- `const NO_MORE_SLOTS: usize = 1<<32` (index_handle.rs line 140). -/
def NO_MORE_SLOTS : Nat := 4294967296

/-- `const BEGINNING_OF_SLOT: usize = 1<<32 + 1` (index_handle.rs
line 141).  In Rust `+` binds tighter than `<<`, so this is `1 << 33`. -/
def BEGINNING_OF_SLOT : Nat := 8589934592

/-- `const NO_MORE_PAGES: u32 = 0` (index_handle.rs line 142). -/
def NO_MORE_PAGES : Nat := 0

/-- EntryType (index_handle.rs lines 210-215). -/
inductive EntryType where
  | Unoccupied
  | New
  | Duplicate
  deriving DecidableEq, Repr

/-- NodeEntry (index_handle.rs lines 217-223). -/
structure NodeEntry where
  et_type : EntryType
  next_slot : Nat
  page_num : Nat
  slot_num : Nat
  deriving DecidableEq, Repr

/-- A B+-tree node page: the NodeHeader (index_handle.rs lines 163-174;
`num1` is reinterpreted as `first_child` for internal nodes and
`prev_page` for leaves, `num2` as a leaf's `next_page`), the entry array
at `node_entries_offset`, and the key array at `keys_offset`.  Keys are
`attr_length`-byte values compared by the typed comparator; they are
modelled as `Int`, matching `AttrType::INT` (index_handle.rs
lines 1224-1234). -/
structure Node where
  is_leaf : Bool
  is_empty : Bool
  num_keys : Nat
  free_slot : Nat
  first_slot : Nat
  num1 : Nat
  num2 : Nat
  entries : Nat → NodeEntry
  keys : Nat → Int

/-- BucketEntry (index_handle.rs lines 225-230). -/
structure BucketEntry where
  next_slot : Nat
  page_num : Nat
  slot_num : Nat
  deriving DecidableEq, Repr

/-- A bucket page: BucketHeader (index_handle.rs lines 202-208) plus its
entry array. -/
structure Bucket where
  num_keys : Nat
  free_slot : Nat
  first_slot : Nat
  next_bucket : Nat
  entries : Nat → BucketEntry

/-- A page of an index file, as typed by the access that interprets it.
`raw` is a freshly allocated page whose payload is zeroed. -/
inductive IXPage where
  | node (nd : Node)
  | bucket (bk : Bucket)
  | raw

/-- The fields of IndexFileHeader (index_handle.rs lines 144-161) that the
handle reads.  The key/entry array offsets are implicit in the `Node` and
`Bucket` structures. -/
structure Hdr where
  max_keys : Nat
  max_node_entries : Nat
  max_bucket_entries : Nat
  root_page : Nat
  deriving DecidableEq, Repr

/-- State of an `IndexHandle` (index_handle.rs lines 236-242) together
with the page store and page-file state: `root_ph` is the pinned root
page handle; `pf_free`, `pf_num_pages`, `pf_file_num`, `pf_next_free`
drive `PageFileHandle::allocate_page`. -/
structure State where
  hdr : Hdr
  header_changed : Bool
  root_ph : Nat
  pages : Nat → IXPage
  pf_next_free : Nat → Nat
  pf_free : Nat
  pf_num_pages : Nat
  pf_file_num : Nat
  pins : Nat → Nat
  dirty : Nat → Bool

/-- Errors of the indexing module (errors/mod.rs `IndexingError` plus the
`Error` variants index_handle.rs names), and three model-level outcomes:
`PanicIndexOutOfBounds` for a Rust slice index out of range,
`PageTypeConfusion` for a page reinterpreted with the wrong layout, and
`OutOfFuel` for a non-terminating loop. -/
inductive IxError where
  | PanicIndexOutOfBounds
  | PageTypeConfusion
  | OutOfFuel
  | AbnormalEntryType
  | GetPageError
  | AllocatePageError
  | UnpinPageError
  | CreateNewNodeError
  | SplitNodeError
  | InsertIntoNonFullNodeError
  deriving DecidableEq, Repr

/-- Map a recoverable error to the caller's wrapper variant, as the
`match`es in index_handle.rs do when re-wrapping errors.  A Rust panic
unwinds past such wrappers, so the model-level panic, fuel and
type-confusion outcomes are preserved. -/
def mapIxErr {α : Type} (tgt : IxError) : Except IxError α → Except IxError α
  | .ok a => .ok a
  | .error .PanicIndexOutOfBounds => .error .PanicIndexOutOfBounds
  | .error .PageTypeConfusion => .error .PageTypeConfusion
  | .error .OutOfFuel => .error .OutOfFuel
  | .error _ => .error tgt

/-- A zeroed NodeEntry, as read from a freshly allocated (zero-filled)
page: discriminant 0 is `Unoccupied`. -/
def zeroNodeEntry : NodeEntry :=
  { et_type := .Unoccupied, next_slot := 0, page_num := 0, slot_num := 0 }

/-- A zeroed page read through `get_header::<NodeHeader>` and
`get_node_entries`. -/
def zeroNode : Node :=
  { is_leaf := false, is_empty := false, num_keys := 0, free_slot := 0,
    first_slot := 0, num1 := 0, num2 := 0,
    entries := fun _ => zeroNodeEntry, keys := fun _ => 0 }

/-- A zeroed BucketEntry. -/
def zeroBucketEntry : BucketEntry :=
  { next_slot := 0, page_num := 0, slot_num := 0 }

/-- A zeroed page read through `get_header::<BucketHeader>`. -/
def zeroBucket : Bucket :=
  { num_keys := 0, free_slot := 0, first_slot := 0, next_bucket := 0,
    entries := fun _ => zeroBucketEntry }

/-- Read a page as a node (`utils::get_header::<NodeHeader>` plus
`get_node_entries`). -/
def asNode : IXPage → Except IxError Node
  | .node nd => .ok nd
  | .raw => .ok zeroNode
  | .bucket _ => .error .PageTypeConfusion

/-- Read a page as a bucket (`utils::get_header::<BucketHeader>` plus
`get_bucket_entries`). -/
def asBucket : IXPage → Except IxError Bucket
  | .bucket bk => .ok bk
  | .raw => .ok zeroBucket
  | .node _ => .error .PageTypeConfusion

def State.getNode (st : State) (p : Nat) : Except IxError Node :=
  asNode (st.pages p)

def State.getBucket (st : State) (p : Nat) : Except IxError Bucket :=
  asBucket (st.pages p)

def setNode (st : State) (p : Nat) (nd : Node) : State :=
  { st with pages := upd st.pages p (.node nd) }

def setBucket (st : State) (p : Nat) (bk : Bucket) : State :=
  { st with pages := upd st.pages p (.bucket bk) }

/-- `entries[i]` on the node-entry slice of length `max_node_entries`
returned by get_node_entries (index_handle.rs lines 1262-1264): Rust slice
indexing panics when out of range. -/
def entryAt (hdr : Hdr) (nd : Node) (i : Nat) : Except IxError NodeEntry :=
  if i < hdr.max_node_entries then .ok (nd.entries i) else .error .PanicIndexOutOfBounds

/-- `entries[i] = e` on the node-entry slice, bounds-checked. -/
def setEntry (hdr : Hdr) (nd : Node) (i : Nat) (e : NodeEntry) : Except IxError Node :=
  if i < hdr.max_node_entries then .ok { nd with entries := upd nd.entries i e }
  else .error .PanicIndexOutOfBounds

/-- `entries[i]` on the bucket-entry slice of length `max_bucket_entries`
(index_handle.rs lines 1266-1268), bounds-checked. -/
def bucketEntryAt (hdr : Hdr) (bk : Bucket) (i : Nat) : Except IxError BucketEntry :=
  if i < hdr.max_bucket_entries then .ok (bk.entries i) else .error .PanicIndexOutOfBounds

/-- `entries[i] = e` on the bucket-entry slice, bounds-checked. -/
def setBucketEntry (hdr : Hdr) (bk : Bucket) (i : Nat) (e : BucketEntry) :
    Except IxError Bucket :=
  if i < hdr.max_bucket_entries then .ok { bk with entries := upd bk.entries i e }
  else .error .PanicIndexOutOfBounds

/-- Key writes go through raw pointers (`keys.offset(i * attr_length)`)
and are not bounds-checked in the source. -/
def setKey (nd : Node) (i : Nat) (v : Int) : Node :=
  { nd with keys := upd nd.keys i v }

/-- IndexHandle::compare (index_handle.rs lines 1224-1260) for
`AttrType::INT`: signed integer comparison. -/
def compareKeys (v1 v2 : Int) : Ordering :=
  compare v1 v2

/-- BufferManager::get_page via PageFileHandle::get_page: pin. -/
def getPage (st : State) (p : Nat) : State :=
  { st with pins := upd st.pins p (st.pins p + 1) }

/-- BufferManager::unpin via PageFileHandle::unpin_page. -/
def bmUnpin (st : State) (p : Nat) : State :=
  if st.pins p = 0 then st
  else { st with pins := upd st.pins p (st.pins p - 1) }

/-- Modelled from the spec: `mark_dirty(page_id)` sets the frame's dirty
bit (the BufferManager method page_file.rs calls is absent from the
checked-in buffer manager). -/
def markDirty (st : State) (p : Nat) : State :=
  { st with dirty := upd st.dirty p true }

/-- PageFileHandle::unpin_dirty_page. -/
def unpinDirtyPage (st : State) (p : Nat) : State :=
  bmUnpin (markDirty st p) p

/-- PageFileHandle::allocate_page (page_file.rs lines 304-360) over the
index page store: the fresh or recycled page is pinned, its PageHeader
rewritten and its payload zeroed (`IXPage.raw`), and it is marked
dirty. -/
def allocatePage (st : State) : Nat × State :=
  if st.pf_free > 0 then
    let p := st.pf_free
    let st1 := getPage st p
    let st2 := { st1 with pf_free := st1.pf_next_free p }
    let st3 := { st2 with
      pages := upd st2.pages p .raw,
      pf_next_free := upd st2.pf_next_free p 0 }
    (p, markDirty st3 p)
  else
    let p := (st.pf_file_num <<< 16) ||| (st.pf_num_pages % 4294967296)
    let st1 := { st with pf_num_pages := st.pf_num_pages + 1 }
    let st2 := getPage st1 p
    let st3 := { st2 with
      pages := upd st2.pages p .raw,
      pf_next_free := upd st2.pf_next_free p 0 }
    (p, markDirty st3 p)

/-- The `for i in 0..max_keys` entry-initialization loop of
create_new_node (index_handle.rs lines 1105-1113), `rem` iterations left
from index `i`. -/
def initNodeEntries (hdr : Hdr) (nd : Node) (i : Nat) : Nat → Except IxError Node
  | 0 => .ok nd
  | rem + 1 => do
    let e ← entryAt hdr nd i
    let e2 := { e with
      et_type := .Unoccupied,
      page_num := 0,
      next_slot := if i = hdr.max_keys - 1 then NO_MORE_SLOTS else i + 1 }
    let nd2 ← setEntry hdr nd i e2
    initNodeEntries hdr nd2 (i + 1) rem

/-- IndexHandle::create_new_node (index_handle.rs lines 1084-1122):
allocate a page, initialize the NodeHeader (`is_empty = true`,
`free_slot = 0`, `first_slot = NO_MORE_SLOTS`), chain entries
`0 → 1 → ... → max_keys-1 → NO_MORE_SLOTS`, unpin dirty, return the
handle. -/
def createNewNode (st : State) (is_leaf : Bool) : Except IxError (Nat × State) := do
  let (p, st1) := allocatePage st
  let nd0 ← st1.getNode p
  let nd1 := { nd0 with
    is_empty := true, is_leaf := is_leaf, num_keys := 0,
    free_slot := 0, first_slot := NO_MORE_SLOTS, num1 := 0, num2 := 0 }
  let nd2 ← initNodeEntries st1.hdr nd1 0 st1.hdr.max_keys
  let st2 := setNode st1 p nd2
  .ok (p, unpinDirtyPage st2 p)

/-- The `for i in 0..max_bucket_entries` loop of create_new_bucket
(index_handle.rs lines 1148-1155). -/
def initBucketEntries (hdr : Hdr) (bk : Bucket) (i : Nat) : Nat → Except IxError Bucket
  | 0 => .ok bk
  | rem + 1 => do
    let e ← bucketEntryAt hdr bk i
    let e2 := { e with
      page_num := 0,
      next_slot := if i = hdr.max_bucket_entries - 1 then NO_MORE_SLOTS else i + 1 }
    let bk2 ← setBucketEntry hdr bk i e2
    initBucketEntries hdr bk2 (i + 1) rem

/-- IndexHandle::create_new_bucket (index_handle.rs lines 1129-1164). -/
def createNewBucket (st : State) : Except IxError (Nat × State) := do
  let (p, st1) := allocatePage st
  let bk0 ← st1.getBucket p
  let bk1 := { bk0 with
    num_keys := 0, free_slot := 0, first_slot := NO_MORE_SLOTS, next_bucket := 0 }
  let bk2 ← initBucketEntries st1.hdr bk1 0 st1.hdr.max_bucket_entries
  let st2 := setBucket st1 p bk2
  .ok (p, unpinDirtyPage st2 p)

/-- The chain walk of IndexHandle::find_node_insert_index
(index_handle.rs lines 1185-1207): advance past keys smaller than `val`,
stop before the first larger key, record a duplicate on equality (and
keep advancing, as the source does). -/
def findIdxGo (hdr : Hdr) (nd : Node) (val : Int) :
    Nat → Nat → Nat → Bool → Except IxError (Nat × Bool)
  | 0, _, _, _ => .error .OutOfFuel
  | fuel + 1, prev, curr, is_dup =>
    if curr = NO_MORE_SLOTS then .ok (prev, is_dup)
    else
      match compareKeys val (nd.keys curr) with
      | .lt => .ok (prev, is_dup)
      | .gt => do
        let e ← entryAt hdr nd curr
        findIdxGo hdr nd val fuel curr e.next_slot is_dup
      | .eq => do
        let e ← entryAt hdr nd curr
        findIdxGo hdr nd val fuel curr e.next_slot true

/-- IndexHandle::find_node_insert_index (index_handle.rs lines 1176-1208). -/
def findNodeInsertIndex (hdr : Hdr) (nd : Node) (val : Int) (fuel : Nat) :
    Except IxError (Nat × Bool) :=
  findIdxGo hdr nd val fuel BEGINNING_OF_SLOT nd.first_slot false

/-- The insertion block of insert_into_bucket (index_handle.rs
lines 486-498): take the bucket's free slot, store the rid, pop the free
chain, push the slot at the head of the occupied chain, bump `num_keys`,
unpin dirty. -/
def bucketInsertHere (st : State) (ph : Nat) (rid : RM.RID) : Except IxError State := do
  let bk ← st.getBucket ph
  let loc := bk.free_slot
  let e ← bucketEntryAt st.hdr bk loc
  let bk1 ← setBucketEntry st.hdr bk loc
    { e with page_num := rid.page_num, slot_num := rid.slot_num }
  let e2 ← bucketEntryAt st.hdr bk1 loc
  let bk2 := { bk1 with free_slot := e2.next_slot }
  let bk3 ← setBucketEntry st.hdr bk2 loc { e2 with next_slot := bk2.first_slot }
  let bk4 := { bk3 with first_slot := loc, num_keys := bk3.num_keys + 1 }
  .ok (unpinDirtyPage (setBucket st ph bk4) ph)

/-- IndexHandle::insert_into_bucket (index_handle.rs lines 456-509).  The
loop sets `flag = false` only on the full-tail branch; on the other two
branches it continues, and its trailing `ph = get_page(next_bucket)` runs
on every path — in particular after inserting into a tail bucket it pins
page `next_bucket = 0` and iterates on it, which this model reproduces
until the fuel runs out. -/
def insertIntoBucket (st : State) (ph : Nat) (rid : RM.RID) :
    Nat → Except IxError State
  | 0 => .error .OutOfFuel
  | fuel + 1 => do
    let bh ← st.getBucket ph
    if bh.next_bucket = NO_MORE_PAGES ∧ bh.num_keys = st.hdr.max_bucket_entries then do
      let (newp, st1) ← createNewBucket st
      let bh1 ← st1.getBucket ph
      let st2 := unpinDirtyPage (setBucket st1 ph { bh1 with next_bucket := newp }) ph
      let st3 ← bucketInsertHere st2 newp rid
      .ok (getPage st3 0)
    else if bh.next_bucket = NO_MORE_PAGES then do
      let st1 ← bucketInsertHere st ph rid
      let st2 := getPage st1 0
      insertIntoBucket st2 0 rid fuel
    else
      insertIntoBucket (getPage st bh.next_bucket) bh.next_bucket rid fuel

/-- The `for i in 0..max_keys/2` chain walk of split_node
(index_handle.rs lines 551-556). -/
def chainWalk (hdr : Hdr) (nd : Node) (prev curr : Nat) :
    Nat → Except IxError (Nat × Nat)
  | 0 => .ok (prev, curr)
  | n + 1 => do
    let e ← entryAt hdr nd curr
    chainWalk hdr nd curr e.next_slot n

/-- The entry-moving loop of split_node (index_handle.rs lines 585-613),
transferring the chain suffix starting at `cur` from node `full_p` to
node `new_p`.  The source's statement order is kept: the entry copy at
line 588 overwrites `new_entries[curr_index2].next_slot` before lines 594
and 604 read it. -/
def moveLoop (hdr : Hdr) (full_p new_p : Nat) (st : State)
    (prev2 cur2 cur : Nat) : Nat → Except IxError State
  | 0 => .error .OutOfFuel
  | fuel + 1 =>
    if cur = NO_MORE_SLOTS then .ok st
    else do
      let full ← st.getNode full_p
      let nw ← st.getNode new_p
      let e ← entryAt hdr full cur
      let nw1 ← setEntry hdr nw cur2 e
      let nw2 := setKey nw1 cur2 (full.keys cur)
      let eC ← entryAt hdr nw2 cur2
      let nw3 ←
        if prev2 = BEGINNING_OF_SLOT then do
          let n1 := { nw2 with free_slot := eC.next_slot }
          let n2 ← setEntry hdr n1 cur2 { eC with next_slot := n1.first_slot }
          pure { n2 with first_slot := cur2 }
        else do
          let n1 := { nw2 with free_slot := eC.next_slot }
          let ePrev ← entryAt hdr n1 prev2
          let n2 ← setEntry hdr n1 cur2 { eC with next_slot := ePrev.next_slot }
          let n3 ← setEntry hdr n2 prev2 { ePrev with next_slot := cur2 }
          pure n3
      let eAfter ← entryAt hdr nw3 cur2
      let prev2N := cur2
      let cur2N := eAfter.next_slot
      let eF ← entryAt hdr full cur
      let curN := eF.next_slot
      let full1 ← setEntry hdr full cur { eF with next_slot := full.free_slot }
      let full2 := { full1 with free_slot := cur, num_keys := full1.num_keys - 1 }
      let nw4 := { nw3 with num_keys := nw3.num_keys + 1 }
      let st1 := setNode (setNode st full_p full2) new_p nw4
      moveLoop hdr full_p new_p st1 prev2N cur2N curN fuel

/-- IndexHandle::split_node (index_handle.rs lines 522-662): create a new
node of the same kind; cut the full node's chain after `max_keys/2`
entries; remember the slot of the key to promote; for internal nodes
relocate the cut entry into the new node's `first_child` and free it;
move the remaining chain suffix into the new node; insert the promoted
key into the parent after `parent_prev_index`; and for leaves stitch the
doubly-linked leaf list.  Returns the parent slot of the promoted key and
the new node's page. -/
def splitNode (st : State) (parent_p full_p : Nat) (is_leaf : Bool)
    (parent_prev_index : Nat) (fuel : Nat) : Except IxError ((Nat × Nat) × State) := do
  let (new_p, st1) ← createNewNode st is_leaf
  let full0 ← st1.getNode full_p
  let (prev0, cur0) ← chainWalk st1.hdr full0 BEGINNING_OF_SLOT full0.first_slot
    (st1.hdr.max_keys / 2)
  let ep ← entryAt st1.hdr full0 prev0
  let full1 ← setEntry st1.hdr full0 prev0 { ep with next_slot := NO_MORE_SLOTS }
  let st2 := setNode st1 full_p full1
  let midSlot := cur0
  let (cur1, st3) ←
    if is_leaf then pure (cur0, st2)
    else do
      let full ← st2.getNode full_p
      let nw ← st2.getNode new_p
      let eMid ← entryAt st2.hdr full cur0
      let nw1 := { nw with num1 := eMid.page_num, is_empty := false }
      let curN := eMid.next_slot
      let full2 ← setEntry st2.hdr full cur0 { eMid with next_slot := full.free_slot }
      let full3 := { full2 with free_slot := cur0, num_keys := full2.num_keys - 1 }
      pure (curN, setNode (setNode st2 full_p full3) new_p nw1)
  let nwStart ← st3.getNode new_p
  let st4 ← moveLoop st3.hdr full_p new_p st3 BEGINNING_OF_SLOT nwStart.free_slot cur1 fuel
  let parent ← st4.getNode parent_p
  let fullAfter ← st4.getNode full_p
  let loc := parent.free_slot
  let parentK := setKey parent loc (fullAfter.keys midSlot)
  let eL ← entryAt st4.hdr parentK loc
  let parent2 ←
    if parent_prev_index = BEGINNING_OF_SLOT then do
      let pn := { parentK with free_slot := eL.next_slot }
      let pn2 ← setEntry st4.hdr pn loc { eL with next_slot := pn.first_slot }
      pure { pn2 with first_slot := loc }
    else do
      let pn := { parentK with free_slot := eL.next_slot }
      let ePrev ← entryAt st4.hdr pn parent_prev_index
      let pn2 ← setEntry st4.hdr pn loc { eL with next_slot := ePrev.next_slot }
      let pn3 ← setEntry st4.hdr pn2 parent_prev_index { ePrev with next_slot := loc }
      pure pn3
  let parent3 := { parent2 with num_keys := parent2.num_keys + 1 }
  let st5 := setNode st4 parent_p parent3
  let st6 ←
    if is_leaf then do
      let nw ← st5.getNode new_p
      let full ← st5.getNode full_p
      let next_page := full.num2
      let nw2 := { nw with num1 := full_p, num2 := full.num2 }
      let full2 := { full with num2 := new_p }
      let stA := setNode (setNode st5 new_p nw2) full_p full2
      if next_page ≠ NO_MORE_PAGES then do
        let stB := getPage stA next_page
        let fn ← stB.getNode next_page
        let stC := setNode stB next_page { fn with num1 := new_p }
        pure (unpinDirtyPage stC next_page)
      else pure stA
    else pure st5
  .ok ((loc, new_p), st6)

/-- IndexHandle::insert_into_nonfull_node (index_handle.rs
lines 299-450). -/
def insertIntoNonfullNode (st : State) (node_p : Nat) (val : Int) (rid : RM.RID) :
    Nat → Except IxError State
  | 0 => .error .OutOfFuel
  | fuel + 1 => do
    let nd ← st.getNode node_p
    if nd.is_leaf then do
      let (prev_index, is_dup) ← findNodeInsertIndex st.hdr nd val (fuel + 1)
      if ¬ is_dup then do
        let index := nd.free_slot
        let nd1 := setKey nd index val
        let nd2 := { nd1 with is_empty := false, num_keys := nd1.num_keys + 1 }
        let eI ← entryAt st.hdr nd2 index
        let nd3 := { nd2 with free_slot := eI.next_slot }
        let nd4 ← setEntry st.hdr nd3 index
          { eI with et_type := .New, page_num := rid.page_num, slot_num := rid.slot_num }
        if prev_index = BEGINNING_OF_SLOT then do
          let eI2 ← entryAt st.hdr nd4 index
          let nd5 ← setEntry st.hdr nd4 index { eI2 with next_slot := NO_MORE_SLOTS }
          .ok (setNode st node_p { nd5 with first_slot := index })
        else do
          let eI2 ← entryAt st.hdr nd4 index
          let ePrev ← entryAt st.hdr nd4 prev_index
          let nd5 ← setEntry st.hdr nd4 index { eI2 with next_slot := ePrev.next_slot }
          let nd6 ← setEntry st.hdr nd5 prev_index { ePrev with next_slot := index }
          .ok (setNode st node_p nd6)
      else do
        let prevE ← entryAt st.hdr nd prev_index
        match prevE.et_type with
        | .Unoccupied => .error .AbnormalEntryType
        | .New => do
          let (bucket_p, st1) ← createNewBucket st
          let st2 ← insertIntoBucket st1 bucket_p rid fuel
          let st3 ← insertIntoBucket st2 bucket_p ⟨prevE.page_num, prevE.slot_num⟩ fuel
          let nd1 ← st3.getNode node_p
          let pe ← entryAt st3.hdr nd1 prev_index
          let nd2 ← setEntry st3.hdr nd1 prev_index
            { pe with et_type := .Duplicate, page_num := bucket_p }
          .ok (setNode st3 node_p nd2)
        | .Duplicate =>
          insertIntoBucket (getPage st prevE.page_num) prevE.page_num rid fuel
    else do
      let (prev_index, _is_dup) ← findNodeInsertIndex st.hdr nd val (fuel + 1)
      let next_node ←
        if prev_index = BEGINNING_OF_SLOT then pure nd.num1
        else do
          let e ← entryAt st.hdr nd prev_index
          pure e.page_num
      let st1 := getPage st next_node
      let nnd ← st1.getNode next_node
      if nnd.num_keys = st1.hdr.max_keys then do
        let ((insert_index, new_p), st2) ← splitNode st1 node_p next_node nnd.is_leaf prev_index fuel
        let ndCur ← st2.getNode node_p
        let edge_val := ndCur.keys insert_index
        match compareKeys val edge_val with
        | .gt | .eq => do
          let st3 := unpinDirtyPage st2 next_node
          let st4 ← insertIntoNonfullNode st3 new_p val rid fuel
          .ok (unpinDirtyPage st4 new_p)
        | .lt => do
          let st3 := unpinDirtyPage st2 new_p
          let st4 ← insertIntoNonfullNode st3 next_node val rid fuel
          .ok (unpinDirtyPage st4 next_node)
      else do
        let st2 ← insertIntoNonfullNode st1 next_node val rid fuel
        .ok (unpinDirtyPage st2 next_node)

/-- IndexHandle::insert_entry (index_handle.rs lines 257-296): if the root
is full, create a new internal root whose `first_child` is the old root,
split the old root at parent index `BEGINNING_OF_SLOT`, unpin the old
root, and make the new node the root (updating `root_page` in the header);
then descend with insert_into_nonfull_node. -/
def insertEntry (st : State) (val : Int) (rid : RM.RID) (fuel : Nat) :
    Except IxError State := do
  let root ← st.getNode st.root_ph
  let st1 ←
    if root.num_keys = st.hdr.max_keys then do
      let (new_root_p, s1) ← mapIxErr .CreateNewNodeError (createNewNode st false)
      let nr ← s1.getNode new_root_p
      let s2 := setNode s1 new_root_p { nr with is_empty := false, num1 := s1.root_ph }
      let (_, s3) ← mapIxErr .SplitNodeError
        (splitNode s2 new_root_p s2.root_ph root.is_leaf BEGINNING_OF_SLOT fuel)
      let s4 := unpinDirtyPage s3 s3.root_ph
      pure { s4 with
        root_ph := new_root_p,
        hdr := { s4.hdr with root_page := new_root_p },
        header_changed := true }
    else pure st
  mapIxErr .InsertIntoNonFullNodeError (insertIntoNonfullNode st1 st1.root_ph val rid fuel)

/-- The slot chain of a node starting at `start`, followed through
`next_slot` until `NO_MORE_SLOTS`, cut off by fuel.  Used to state the
slot-partition invariant. -/
def chainList (nd : Node) : Nat → Nat → List Nat
  | _, 0 => []
  | start, fuel + 1 =>
    if start = NO_MORE_SLOTS then []
    else start :: chainList nd (nd.entries start).next_slot fuel

end IX

/-! Concrete states used to evaluate the operations above. -/

/-- The record-file header `create_file` computes for `record_size = 4`
with a small page: `bitmap_offset = size_of::<RecordPageHeader>() = 16`,
one bitmap byte, records at 17 (record_file_manager.rs lines 64-69;
`num_records_per_page` pinned to 8 to keep evaluation small). -/
def rmDemoHdr : RM.FileHeader :=
  { record_size := 4, bitmap_offset := 16, bitmap_size := 1,
    records_offset := 17, num_records_per_page := 8, num_pages := 1 }

/-- An all-zero record page. -/
def rmZeroPage : RM.RecPage :=
  { num_records := 0, next_free := 0, bytes := fun _ => 0 }

/-- A freshly created record file: no data pages, empty free chain. -/
def rmEmpty : RM.State :=
  { hdr := rmDemoHdr, free := 0, pages := fun _ => rmZeroPage,
    pf_next_free := fun _ => 0, pf_free := 0, pf_num_pages := 1, pf_file_num := 1,
    pins := fun _ => 0, dirty := fun _ => false }

/-- The record inserted in the C1 witness run. -/
def c1Data : List Nat := [1, 2, 3, 4]

/-- Result of inserting `c1Data` into the fresh file. -/
def c1Res : Except RM.RmError (RM.RID × RM.State) :=
  RM.insertRecord rmEmpty c1Data 5

/-- The state after the C1 witness insertion. -/
def c1After : RM.State :=
  match c1Res with
  | .ok (_, s) => s
  | .error _ => rmEmpty

/-- The RID returned by the C1 witness insertion. -/
def c1Rid : RM.RID :=
  match c1Res with
  | .ok (r, _) => r
  | .error _ => ⟨0, 0⟩

/-- A record page holding two records (slots 0 and 1 set: bitmap byte
`0b1100_0000 = 192`), so it is not full and — with `free` pointing at it —
already at the head of the pages-with-free-space chain. -/
def rmC6Page : RM.RecPage :=
  { num_records := 2, next_free := 0, bytes := fun a => if a = 16 then 192 else 0 }

/-- Record-file state whose free-page chain is exactly page 65537. -/
def rmC6State : RM.State :=
  { hdr := rmDemoHdr, free := 65537,
    pages := fun p => if p = 65537 then rmC6Page else rmZeroPage,
    pf_next_free := fun _ => 0, pf_free := 0, pf_num_pages := 2, pf_file_num := 1,
    pins := fun _ => 0, dirty := fun _ => false }

/-- State after deleting record (65537, 0) from `rmC6State`. -/
def c6After : RM.State :=
  (RM.deleteRecord rmC6State ⟨65537, 0⟩).1

/-- A record page with only slot 0 occupied (bitmap byte `0b1000_0000`):
the bitmap bit of slot 1 is unset. -/
def rmC7Page : RM.RecPage :=
  { num_records := 1, next_free := 0, bytes := fun a => if a = 16 then 128 else 0 }

/-- Record-file state for the C7 run. -/
def rmC7State : RM.State :=
  { hdr := rmDemoHdr, free := 65537,
    pages := fun p => if p = 65537 then rmC7Page else rmZeroPage,
    pf_next_free := fun _ => 0, pf_free := 0, pf_num_pages := 2, pf_file_num := 1,
    pins := fun _ => 0, dirty := fun _ => false }

/-- State after `update_record` on the unoccupied slot (65537, 1). -/
def c7After : RM.State :=
  RM.updateRecord rmC7State ⟨⟨65537, 1⟩, 4, [9, 9, 9, 9]⟩

/-- An all-zero page-file page. -/
def pfZeroPage : PF.PFPage :=
  { page_num := 0, next_free := 0, payload := fun _ => 0 }

/-- A page file in which page 7 was already disposed (it sits on the
freelist with `next_free = 5`, and is the freelist head). -/
def pfC5State : PF.State :=
  { file_num := 1, num_pages := 9, free := 7, header_changed := false,
    pages := fun p =>
      if p = 7 then { page_num := 7, next_free := 5, payload := fun _ => 0 }
      else pfZeroPage,
    pins := fun _ => 0, dirty := fun _ => false }

/-- A page file with three allocated pages 3, 4, 5 (all off the freelist)
and an empty freelist, for the C8 witness. -/
def pfC8State : PF.State :=
  { file_num := 1, num_pages := 6, free := 0, header_changed := false,
    pages := fun p => { page_num := p, next_free := 0, payload := fun _ => 0 },
    pins := fun _ => 0, dirty := fun _ => false }

/-- An unused buffer frame. -/
def bmFreeFrame : BM.Frame :=
  { dataSet := false, data := [], next := -1, prev := -1, dirty := false,
    pin_count := 0, page_num := 0, hasFp := true }

/-- Buffer state for the C4 witness: frame 0 holds dirty page 65538 (pin
count 0, alone on the LRU list), `page_size = 4`. -/
def bmC4State : BM.State :=
  { cap := 128, num_pages := 1, page_size := 4, first := 0, last := 0, free := 1,
    frames := fun i =>
      if i = 0 then
        { dataSet := true, data := [1, 2, 3, 4], next := -1, prev := -1,
          dirty := true, pin_count := 0, page_num := 65538, hasFp := true }
      else bmFreeFrame,
    page_table := fun q => if q = 65538 then some 0 else none }

/-- Buffer state with nothing resident: page 5 is not in the page table. -/
def bmC9NotResident : BM.State :=
  { cap := 128, num_pages := 0, page_size := 4, first := -1, last := -1, free := 0,
    frames := fun _ => bmFreeFrame, page_table := fun _ => none }

/-- Buffer state in which page 7 is resident at frame 2 with pin count 0. -/
def bmC9Unpinned : BM.State :=
  { cap := 128, num_pages := 1, page_size := 4, first := 2, last := 2, free := 0,
    frames := fun i =>
      if i = 2 then
        { dataSet := true, data := [0, 0, 0, 0], next := -1, prev := -1,
          dirty := false, pin_count := 0, page_num := 7, hasFp := true }
      else bmFreeFrame,
    page_table := fun q => if q = 7 then some 2 else none }

/-- Buffer state in which page 9 is resident at frame 1 with pin count 1. -/
def bmC9Pinned : BM.State :=
  { cap := 128, num_pages := 1, page_size := 4, first := -1, last := -1, free := 0,
    frames := fun i =>
      if i = 1 then
        { dataSet := true, data := [0, 0, 0, 0], next := -1, prev := -1,
          dirty := true, pin_count := 1, page_num := 9, hasFp := true }
      else bmFreeFrame,
    page_table := fun q => if q = 9 then some 1 else none }

/-- Index-file header for the concrete runs: `max_keys = 4` (and entry
arrays of the same length). -/
def ixDemoHdr : IX.Hdr :=
  { max_keys := 4, max_node_entries := 4, max_bucket_entries := 4, root_page := 65537 }

/-- The empty leaf node produced by `create_new_node(&true)` for
`max_keys = 4`: free chain `0 → 1 → 2 → 3 → NO_MORE_SLOTS`, empty
occupied chain. -/
def ixEmptyLeaf : IX.Node :=
  { is_leaf := true, is_empty := true, num_keys := 0, free_slot := 0,
    first_slot := IX.NO_MORE_SLOTS, num1 := 0, num2 := 0,
    entries := fun i =>
      if i < 4 then
        { et_type := .Unoccupied, page_num := 0, slot_num := 0,
          next_slot := if i = 3 then IX.NO_MORE_SLOTS else i + 1 }
      else IX.zeroNodeEntry,
    keys := fun _ => 0 }

/-- Index state whose root (page 65537) is a freshly created empty leaf. -/
def ixC2Start : IX.State :=
  { hdr := ixDemoHdr, header_changed := false, root_ph := 65537,
    pages := fun p => if p = 65537 then .node ixEmptyLeaf else .raw,
    pf_next_free := fun _ => 0, pf_free := 0, pf_num_pages := 2, pf_file_num := 1,
    pins := fun _ => 0, dirty := fun _ => false }

/-- State after inserting key 5 into the empty root leaf. -/
def c2State1 : IX.State :=
  match IX.insertEntry ixC2Start 5 ⟨2, 0⟩ 50 with
  | .ok s => s
  | .error _ => ixC2Start

/-- State after additionally inserting key 3 (a new minimum). -/
def c2State2 : IX.State :=
  match IX.insertEntry c2State1 3 ⟨2, 1⟩ 50 with
  | .ok s => s
  | .error _ => ixC2Start

/-- The root node after the two C2 insertions. -/
def c2Node : IX.Node :=
  match c2State2.getNode 65537 with
  | .ok nd => nd
  | .error _ => IX.zeroNode

/-- A full root leaf in canonical layout: occupied chain `0 → 1 → 2 → 3`,
keys 10, 20, 30, 40, empty free chain — the node obtained by inserting
`max_keys = 4` ascending keys into a fresh leaf. -/
def ixFullLeaf : IX.Node :=
  { is_leaf := true, is_empty := false, num_keys := 4, free_slot := IX.NO_MORE_SLOTS,
    first_slot := 0, num1 := 0, num2 := 0,
    entries := fun i =>
      if i < 4 then
        { et_type := .New, page_num := 3, slot_num := i,
          next_slot := if i = 3 then IX.NO_MORE_SLOTS else i + 1 }
      else IX.zeroNodeEntry,
    keys := fun i => if i < 4 then 10 * (Int.ofNat i + 1) else 0 }

/-- Index state whose root (page 65537) is the full leaf above. -/
def ixC3Start : IX.State :=
  { hdr := ixDemoHdr, header_changed := false, root_ph := 65537,
    pages := fun p => if p = 65537 then .node ixFullLeaf else .raw,
    pf_next_free := fun _ => 0, pf_free := 0, pf_num_pages := 2, pf_file_num := 1,
    pins := fun _ => 0, dirty := fun _ => false }

/-- Whether an `Except` is a success. -/
def exceptOk {ε α : Type} : Except ε α → Bool
  | .ok _ => true
  | .error _ => false

/-- Deleting the record that `update_record` wrote into the unoccupied
slot (65537, 1): the bitmap bit is still unset, so the delete errors —
after having zeroed the slot. -/
def c5DeleteRes : RM.State × Except RM.RmError Unit :=
  RM.deleteRecord c7After ⟨65537, 1⟩

/-! Helper lemmas. -/

@[simp] theorem upd_same {α : Type} (f : Nat → α) (k : Nat) (v : α) :
    upd f k v k = v := by
  simp [upd]

@[simp] theorem upd_other {α : Type} (f : Nat → α) (k q : Nat) (v : α) (h : q ≠ k) :
    upd f k v q = f q := by
  simp [upd, h]

theorem upd_upd_same {α : Type} (f : Nat → α) (k : Nat) (v w : α) :
    upd (upd f k v) k w = upd f k w := by
  funext q
  by_cases h : q = k <;> simp [upd, h]

@[simp] theorem rm_hdr_getPage (st : RM.State) (p : Nat) :
    (RM.getPage st p).hdr = st.hdr := rfl

@[simp] theorem rm_hdr_bmUnpin (st : RM.State) (p : Nat) :
    (RM.bmUnpin st p).hdr = st.hdr := by
  unfold RM.bmUnpin
  split <;> rfl

@[simp] theorem rm_hdr_markDirty (st : RM.State) (p : Nat) :
    (RM.markDirty st p).hdr = st.hdr := rfl

@[simp] theorem rm_hdr_unpinPage (st : RM.State) (p : Nat) :
    (RM.unpinPage st p).hdr = st.hdr := by
  simp [RM.unpinPage]

@[simp] theorem rm_hdr_unpinDirtyPage (st : RM.State) (p : Nat) :
    (RM.unpinDirtyPage st p).hdr = st.hdr := by
  simp [RM.unpinDirtyPage]

@[simp] theorem rm_hdr_setPage (st : RM.State) (p : Nat) (pg : RM.RecPage) :
    (RM.setPage st p pg).hdr = st.hdr := rfl

@[simp] theorem rm_hdr_allocatePage (st : RM.State) :
    (RM.allocatePage st).2.hdr = st.hdr := by
  unfold RM.allocatePage
  split <;> rfl

@[simp] theorem rm_pages_bmUnpin (st : RM.State) (p : Nat) :
    (RM.bmUnpin st p).pages = st.pages := by
  unfold RM.bmUnpin
  split <;> rfl

@[simp] theorem rm_pages_markDirty (st : RM.State) (p : Nat) :
    (RM.markDirty st p).pages = st.pages := rfl

@[simp] theorem rm_pages_unpinDirtyPage (st : RM.State) (p : Nat) :
    (RM.unpinDirtyPage st p).pages = st.pages := by
  simp [RM.unpinDirtyPage, RM.unpinPage]

@[simp] theorem rm_pages_getPage (st : RM.State) (p : Nat) :
    (RM.getPage st p).pages = st.pages := rfl

@[simp] theorem rm_pages_setPage (st : RM.State) (p : Nat) (pg : RM.RecPage) :
    (RM.setPage st p pg).pages p = pg := by
  simp [RM.setPage]

theorem rm_insertFind_hdr (hdr : RM.FileHeader) :
    ∀ (fuel : Nat) (st : RM.State) (r : Nat × Nat × Bool) (st1 : RM.State),
      RM.insertFind hdr st fuel = .ok (r, st1) → st1.hdr = st.hdr := by
  intro fuel
  induction fuel with
  | zero =>
    intro st r st1 h
    simp [RM.insertFind] at h
  | succ n ih =>
    intro st r st1 h
    unfold RM.insertFind at h
    simp only [] at h
    split at h
    · split at h
      · cases h
        simp
      · exact Except.noConfusion h
    · split at h
      · exact Except.noConfusion h
      · split at h
        · have := ih _ _ _ h
          simpa using this
        · split at h
          · cases h
            simp
          · exact Except.noConfusion h

theorem range_map_getD (d : List Nat) :
    (List.range d.length).map (fun i => d.getD i 0) = d := by
  apply List.ext_getElem
  · simp
  · intro i h1 h2
    simp [List.getD_eq_getElem?_getD, List.getElem?_eq_getElem h2]

theorem recPage_bytes_ite (c : Prop) [Decidable c] (pg : RM.RecPage) (a b : Nat) :
    (if c then { pg with num_records := a } else { pg with num_records := b } : RM.RecPage).bytes
      = pg.bytes := by
  split <;> rfl

theorem copyIn_bytes_in (pg : RM.RecPage) (off count : Nat) (src : Nat → Nat)
    (i : Nat) (hi : i < count) :
    (RM.copyIn pg off count src).bytes (off + i) = src i := by
  simp [RM.copyIn, Nat.le_add_right, Nat.add_lt_add_left hi]

/-! Claim theorems. -/

/-- C1: record-manager round trip — for every record file handle and every
data buffer `d` of `record_size` bytes, if `insert_record(d)` returns
RID `r`, then a subsequent `get_record(r)` returns a record whose
`record_size` bytes equal `d`. -/
theorem c1_insert_get_round_trip (st : RM.State) (d : List Nat) (fuel : Nat)
    (rid : RM.RID) (st1 : RM.State)
    (hlen : d.length = st.hdr.record_size)
    (hok : RM.insertRecord st d fuel = .ok (rid, st1)) :
    (RM.getRecord st1 rid).1.data = d := by
  unfold RM.insertRecord at hok
  cases hfind : RM.insertFind st.hdr st fuel with
  | error e =>
    rw [hfind] at hok
    exact Except.noConfusion hok
  | ok pr =>
    obtain ⟨⟨p, slot, isNew⟩, stf⟩ := pr
    rw [hfind] at hok
    simp only [] at hok
    cases hok
    have hhdr : stf.hdr = st.hdr := rm_insertFind_hdr st.hdr fuel st _ _ hfind
    simp only [RM.getRecord, rm_hdr_getPage, rm_hdr_unpinDirtyPage, rm_hdr_setPage,
      rm_pages_getPage, rm_pages_unpinDirtyPage, rm_pages_setPage, recPage_bytes_ite,
      hhdr]
    rw [← hlen]
    have hmap : ∀ i ∈ List.range d.length,
        (RM.copyIn (stf.pages p) (RM.getRecordOffset st.hdr slot) d.length
          (RM.listSrc d)).bytes (RM.getRecordOffset st.hdr slot + i) = d.getD i 0 := by
      intro i hi
      rw [List.mem_range] at hi
      exact copyIn_bytes_in _ _ _ _ _ hi
    rw [List.map_congr_left hmap, range_map_getD]

/-- C1 witness: inserting the 4-byte record `[1, 2, 3, 4]` into a fresh
file and reading it back through the returned RID yields `[1, 2, 3, 4]`. -/
theorem c1_insert_get_round_trip_witness :
    c1Data.length = rmEmpty.hdr.record_size
    ∧ (RM.getRecord c1After c1Rid).1.data = c1Data :=
  ⟨rfl, c1_insert_get_round_trip rmEmpty c1Data 5 c1Rid c1After rfl rfl⟩

/-- C10: `get_record` is pure — it returns a fresh copy of the
`record_size` bytes at the record's slot and leaves the entire state
(page bytes, headers, dirty bits, and — after the matching unpin — pin
counts) unchanged. -/
theorem c10_get_record_pure (st : RM.State) (rid : RM.RID) :
    RM.getRecord st rid =
      ({ rid := rid, record_size := st.hdr.record_size,
         data := (List.range st.hdr.record_size).map
           (fun i => (st.pages rid.page_num).bytes
             (RM.getRecordOffset st.hdr rid.slot_num + i)) },
       st) := by
  unfold RM.getRecord RM.unpinPage RM.bmUnpin RM.getPage
  simp only [upd_same]
  rw [if_neg (Nat.succ_ne_zero _)]
  have hpins : upd (upd st.pins rid.page_num (st.pins rid.page_num + 1)) rid.page_num
      (st.pins rid.page_num) = st.pins := by
    rw [upd_upd_same]
    funext q
    by_cases h : q = rid.page_num <;> simp [upd, h]
  simp [hpins]

/-- C6: the code evaluated at the failing input — page 65537 holds two
records (not full) and is already the head of the pages-with-free-space
chain, yet `delete_record` of slot 0 links it again: the page's
`next_free_page` is set to the page itself, the chain head stays 65537,
and bit 0 is cleared with `num_records` decremented and the slot zeroed.
The claim (and spec) say a page already on the chain is not linked a
second time. -/
theorem c6_delete_relinks_unconditionally :
    (RM.deleteRecord rmC6State ⟨65537, 0⟩).2 = .ok ()
    ∧ rmC6State.free = 65537
    ∧ (rmC6State.pages 65537).num_records < rmDemoHdr.num_records_per_page
    ∧ (c6After.pages 65537).next_free = 65537
    ∧ c6After.free = 65537
    ∧ (c6After.pages 65537).num_records = 1
    ∧ (c6After.pages 65537).bytes 16 = 64 :=
  ⟨rfl, rfl, by decide, rfl, rfl, rfl, rfl⟩

/-- C7: the code evaluated at the failing input — the bitmap bit of slot
(65537, 1) is unset (the slot bytes are zero), yet `update_record`
neither checks the bit nor fails: it copies the 4 data bytes into the
slot and returns.  The claim says it must fail with NotFound. -/
theorem c7_update_ignores_unset_bit :
    (rmC7State.pages 65537).bytes 16 &&& (1 <<< (7 - 1)) = 0
    ∧ (rmC7State.pages 65537).bytes 21 = 0
    ∧ (c7After.pages 65537).bytes 21 = 9
    ∧ (c7After.pages 65537).bytes 22 = 9
    ∧ (c7After.pages 65537).bytes 23 = 9
    ∧ (c7After.pages 65537).bytes 24 = 9 :=
  ⟨rfl, rfl, rfl, rfl, rfl, rfl⟩

/-- C5: the code evaluated at the failing inputs.  First,
`dispose_page(7)` on a page whose `next_free` is nonzero returns
`Err(PageDisposed)` but leaves the page pinned (pin count 0 → 1): pin
counts do not balance out on the error path.  Second, `delete_record` on
an RID whose bitmap bit is unset zeroes the slot bytes before the
fallible bitmap check, so the caller-observable page state differs from
the pre-call state even though an error is returned. -/
theorem c5_error_paths_mutate_state :
    (PF.disposePage pfC5State 7).2 = .error .PageDisposed
    ∧ pfC5State.pins 7 = 0
    ∧ (PF.disposePage pfC5State 7).1.pins 7 = 1
    ∧ c5DeleteRes.2 = .error .SetBitmapError
    ∧ (c7After.pages 65537).bytes 21 = 9
    ∧ (c5DeleteRes.1.pages 65537).bytes 21 = 0 :=
  ⟨rfl, rfl, rfl, rfl, rfl, rfl⟩

/-- The page store is untouched by unpin, mark-dirty and get-page. -/
theorem pf_pages_aux (st : PF.State) (p : Nat) :
    (PF.bmUnpin st p).pages = st.pages
    ∧ (PF.markDirty st p).pages = st.pages
    ∧ (PF.getPage st p).pages = st.pages := by
  refine ⟨?_, rfl, rfl⟩
  unfold PF.bmUnpin
  split <;> rfl

/-- A chain only depends on the pages it traverses. -/
theorem pf_isChain_congr :
    ∀ (l : List Nat) (st st1 : PF.State) (head : Nat),
      (∀ q ∈ l, st1.pages q = st.pages q) →
      PF.isChain st head l → PF.isChain st1 head l := by
  intro l
  induction l with
  | nil =>
    intro st st1 head _ h
    exact h
  | cons q rest ih =>
    intro st st1 head hagree h
    obtain ⟨h1, h2, h3⟩ := h
    refine ⟨h1, h2, ?_⟩
    rw [hagree q (by simp)]
    exact ih st st1 _ (fun r hr => hagree r (by simp [hr])) h3

/-- Behaviour of `dispose_page` on a page whose `next_free` is zero: it
succeeds, makes the page the freelist head pointing at the old head,
leaves `num_pages` and all other pages unchanged. -/
theorem pf_disposePage_spec (st : PF.State) (p : Nat)
    (h : (st.pages p).next_free = 0) :
    (PF.disposePage st p).2 = .ok ()
    ∧ (PF.disposePage st p).1.free = p
    ∧ (PF.disposePage st p).1.num_pages = st.num_pages
    ∧ (PF.disposePage st p).1.pages p = { st.pages p with next_free := st.free }
    ∧ ∀ q, q ≠ p → (PF.disposePage st p).1.pages q = st.pages q := by
  unfold PF.disposePage
  simp only [PF.getPage]
  rw [if_neg (by simp [h])]
  refine ⟨rfl, ?_, ?_, ?_, ?_⟩
  · simp [PF.bmUnpin, PF.markDirty]
  · simp [PF.bmUnpin, PF.markDirty]
  · have : ∀ s : PF.State, (PF.bmUnpin s p).pages = s.pages := by
      intro s
      unfold PF.bmUnpin
      split <;> rfl
    simp [this, PF.markDirty]
  · intro q hq
    have : ∀ s : PF.State, (PF.bmUnpin s p).pages = s.pages := by
      intro s
      unfold PF.bmUnpin
      split <;> rfl
    simp [this, PF.markDirty, upd, hq]

/-- Disposing a list of fresh pages (not on the freelist, `next_free = 0`)
prepends them, in reverse, to the freelist. -/
theorem pf_disposeList_chain :
    ∀ (ps : List Nat) (st : PF.State) (acc : List Nat),
      PF.isChain st st.free acc →
      ps.Nodup →
      (∀ p ∈ ps, p ≠ 0 ∧ (st.pages p).next_free = 0 ∧ p ∉ acc) →
      (PF.disposeList st ps).2 = .ok ()
      ∧ PF.isChain (PF.disposeList st ps).1 (PF.disposeList st ps).1.free
          (ps.reverse ++ acc)
      ∧ (PF.disposeList st ps).1.num_pages = st.num_pages := by
  intro ps
  induction ps with
  | nil =>
    intro st acc hchain _ _
    exact ⟨rfl, by simpa using hchain, rfl⟩
  | cons p rest ih =>
    intro st acc hchain hnd hps
    obtain ⟨hp0, hpnf, hpacc⟩ := hps p (by simp)
    obtain ⟨hok, hfree, hnum, hpageP, hpageQ⟩ := pf_disposePage_spec st p hpnf
    rcases hd : PF.disposePage st p with ⟨stA, rA⟩
    rw [hd] at hok hfree hnum hpageP hpageQ
    simp only at hok hfree hnum hpageP hpageQ
    subst hok
    have hrest0 : p ∉ rest ∧ rest.Nodup := by
      simpa [List.nodup_cons] using hnd
    have hchainA : PF.isChain stA stA.free (p :: acc) := by
      refine ⟨hfree, hp0, ?_⟩
      rw [hpageP]
      have hacc : PF.isChain stA st.free acc := by
        refine pf_isChain_congr acc st stA st.free ?_ hchain
        intro q hq
        exact hpageQ q (fun he => hpacc (he ▸ hq))
      simpa using hacc
    have hrec := ih stA (p :: acc) hchainA hrest0.2 ?_
    · refine ⟨?_, ?_, ?_⟩
      · rw [PF.disposeList, hd]
        exact hrec.1
      · rw [PF.disposeList, hd]
        have : (p :: rest).reverse ++ acc = rest.reverse ++ (p :: acc) := by
          simp
        rw [this]
        exact hrec.2.1
      · rw [PF.disposeList, hd]
        rw [hrec.2.2, hnum]
    · intro q hq
      have hq' := hps q (by simp [hq])
      have hqp : q ≠ p := fun he => hrest0.1 (he ▸ hq)
      refine ⟨hq'.1, ?_, ?_⟩
      · rw [hpageQ q hqp]
        exact hq'.2.1
      · simp only [List.mem_cons, not_or]
        exact ⟨hqp, hq'.2.2⟩

/-- Reusing the freelist head: `allocate_page` with a nonempty freelist
returns the head, advances the header's `free` to the popped page's
`next_free`, and leaves `num_pages` and all other pages unchanged. -/
theorem pf_allocPage_pop (st : PF.State) (hq : st.free ≠ 0) :
    (PF.allocatePage st).1 = st.free
    ∧ (PF.allocatePage st).2.free = (st.pages st.free).next_free
    ∧ (PF.allocatePage st).2.num_pages = st.num_pages
    ∧ ∀ r, r ≠ st.free → (PF.allocatePage st).2.pages r = st.pages r := by
  unfold PF.allocatePage
  rw [if_pos (Nat.pos_of_ne_zero hq)]
  refine ⟨rfl, ?_, ?_, ?_⟩
  · simp [PF.allocFinish, PF.markDirty, PF.getPage]
  · simp [PF.allocFinish, PF.markDirty, PF.getPage]
  · intro r hr
    simp [PF.allocFinish, PF.markDirty, PF.getPage, upd, hr]

/-- Allocating as many pages as the freelist holds pops them in order and
leaves `num_pages` unchanged. -/
theorem pf_allocateN_chain :
    ∀ (l : List Nat) (st : PF.State),
      PF.isChain st st.free l → l.Nodup →
      (PF.allocateN st l.length).1 = l
      ∧ (PF.allocateN st l.length).2.num_pages = st.num_pages := by
  intro l
  induction l with
  | nil =>
    intro st _ _
    exact ⟨rfl, rfl⟩
  | cons q rest ih =>
    intro st hchain hnd
    obtain ⟨hh, hq0, hrest⟩ := hchain
    have hfree0 : st.free ≠ 0 := by
      rw [hh]
      exact hq0
    obtain ⟨hp1, hpfree, hpnum, hppages⟩ := pf_allocPage_pop st hfree0
    have hnd' : q ∉ rest ∧ rest.Nodup := by
      simpa [List.nodup_cons] using hnd
    have hchain' : PF.isChain (PF.allocatePage st).2 (PF.allocatePage st).2.free rest := by
      rw [hpfree, hh]
      refine pf_isChain_congr rest st _ _ ?_ hrest
      intro r hr
      refine hppages r ?_
      rw [hh]
      exact fun he => hnd'.1 (he ▸ hr)
    have hrec := ih (PF.allocatePage st).2 hchain' hnd'.2
    refine ⟨?_, ?_⟩
    · rw [List.length_cons, PF.allocateN]
      rw [hrec.1, hp1, hh]
    · rw [List.length_cons, PF.allocateN]
      rw [hrec.2, hpnum]

/-- C8: freelist LIFO reuse — disposing N allocated pages (distinct,
nonzero, off the freelist) onto an empty freelist and then allocating N
times returns exactly the disposed page ids in reverse-dispose order, and
`num_pages` is unchanged by the whole sequence. -/
theorem c8_freelist_lifo (st : PF.State) (ps : List Nat)
    (hfree : st.free = 0) (hnd : ps.Nodup)
    (hps : ∀ p ∈ ps, p ≠ 0 ∧ (st.pages p).next_free = 0) :
    (PF.disposeList st ps).2 = .ok ()
    ∧ (PF.allocateN (PF.disposeList st ps).1 ps.length).1 = ps.reverse
    ∧ (PF.allocateN (PF.disposeList st ps).1 ps.length).2.num_pages = st.num_pages
    ∧ (PF.disposeList st ps).1.num_pages = st.num_pages := by
  have hd := pf_disposeList_chain ps st []
    (by simpa [PF.isChain] using hfree) hnd
    (fun p hp => ⟨(hps p hp).1, (hps p hp).2, by simp⟩)
  obtain ⟨hok, hchain, hnum⟩ := hd
  have hrev : ps.reverse.Nodup := by
    simpa using hnd
  have ha := pf_allocateN_chain ps.reverse (PF.disposeList st ps).1
    (by simpa using hchain) hrev
  rw [List.length_reverse] at ha
  exact ⟨hok, ha.1, ha.2.trans hnum, hnum⟩

/-- C8 witness: dispose pages 3, 4, 5 of a file with an empty freelist,
then allocate three pages: the ids come back as 5, 4, 3 and `num_pages`
stays 6. -/
theorem c8_freelist_lifo_witness :
    (PF.disposeList pfC8State [3, 4, 5]).2 = .ok ()
    ∧ (PF.allocateN (PF.disposeList pfC8State [3, 4, 5]).1 3).1 = [5, 4, 3]
    ∧ (PF.allocateN (PF.disposeList pfC8State [3, 4, 5]).1 3).2.num_pages
        = pfC8State.num_pages
    ∧ (PF.disposeList pfC8State [3, 4, 5]).1.num_pages = pfC8State.num_pages :=
  c8_freelist_lifo pfC8State [3, 4, 5] rfl (by decide) (by decide)

/-- `unlink` rewires LRU links only; no frame's `page_num` changes. -/
theorem bm_unlink_frames_page_num (st : BM.State) (index i : Nat) :
    ((BM.unlink st index).frames i).page_num = (st.frames i).page_num := by
  unfold BM.unlink
  by_cases hp : (st.frames index).prev = -1 <;>
    by_cases hn : (st.frames index).next = -1 <;>
      simp [hp, hn, upd, apply_ite BM.Frame.page_num]
  all_goals try (intro h; subst h; rfl)
  all_goals split_ifs <;> simp_all

/-- `link` makes the linked frame the LRU head. -/
theorem bm_link_first (st : BM.State) (i : Nat) :
    (BM.link st i).first = (i : Int) := by
  simp [BM.link, apply_ite BM.State.first]

/-- C4: dirty eviction discipline — under the `free_page` guards (a real
in-range frame, pin count 0, on the LRU list): a clean frame is evicted
with no write issued; a dirty frame is evicted only when `write_page`
returned `Okay`, in which case the write was issued at offset
`file_header_size + (page_num & 0xffff) * page_size` with the frame's
buffer, and eviction removes the page from the page table; when the
write-back fails (or the frame has no file pointer) the pool state is
returned unchanged — the frame stays resident — and the error
propagates. -/
theorem c4_dirty_eviction_writeback (st : BM.State) (index : Nat) (w : BM.WriteOutcome)
    (h1 : index ≠ BM.usizeMax)
    (h2 : ¬ index > st.cap)
    (h3 : (st.frames index).pin_count = 0)
    (h4 : ¬ (BM.intToUsize st.first ≠ index ∧ (st.frames index).prev = -1)) :
    ((st.frames index).dirty = false →
      BM.freePage st index w = (.Okay, BM.freeFinish st index, none)
      ∧ (BM.freeFinish st index).page_table (st.frames index).page_num = none)
    ∧ ((st.frames index).dirty = true → (st.frames index).hasFp = true →
      (st.frames index).dataSet = true → ∀ n, w = .wrote n → ¬ n < st.page_size →
      BM.freePage st index w =
        (.Okay, BM.freeFinish st index,
         some (BM.pageFileHeaderSize + ((st.frames index).page_num % 65536) * st.page_size,
               (st.frames index).data))
      ∧ (BM.freeFinish st index).page_table (st.frames index).page_num = none)
    ∧ ((st.frames index).dirty = true → (st.frames index).hasFp = true →
      ∀ e evt, BM.writePage st (st.frames index).page_num index w = (e, evt) →
      e ≠ .Okay → BM.freePage st index w = (e, st, evt))
    ∧ ((st.frames index).dirty = true → (st.frames index).hasFp = false →
      BM.freePage st index w = (.NoFilePointer, st, none)) := by
  have hpt : (BM.freeFinish st index).page_table (st.frames index).page_num = none := by
    simp [BM.freeFinish, bm_unlink_frames_page_num]
  refine ⟨?_, ?_, ?_, ?_⟩
  · intro hdirty
    refine ⟨?_, hpt⟩
    simp [BM.freePage, h1, h2, h3, h4, hdirty]
  · intro hdirty hfp hdata n hw hn
    subst hw
    refine ⟨?_, hpt⟩
    simp [BM.freePage, h1, h2, h3, h4, hdirty, hfp, BM.writePage, hdata, hn,
      BM.getPageOffset]
  · intro hdirty hfp e evt hwp he
    have : BM.freePage st index w =
        (match BM.writePage st (st.frames index).page_num index w with
         | (.Okay, evt) => (.Okay, BM.freeFinish st index, evt)
         | (e, evt) => (e, st, evt)) := by
      simp [BM.freePage, h1, h2, h3, h4, hdirty, hfp]
    rw [this, hwp]
    cases e with
    | Okay => exact absurd rfl he
    | NoPage => rfl
    | OutOfIndex => rfl
    | PagePinned => rfl
    | PageFreed => rfl
    | NoFilePointer => rfl
    | DataUnintialized => rfl
    | WriteAtError => rfl
    | IncompleteWrite => rfl
  · intro hdirty hfp
    simp [BM.freePage, h1, h2, h3, h4, hdirty, hfp]

/-- C4 witness: a dirty frame (page 65538, buffer `[1,2,3,4]`,
`page_size = 4`) is evicted after a full 4-byte write at offset
`16 + 2*4 = 24`, and the page leaves the page table. -/
theorem c4_dirty_eviction_writeback_witness :
    BM.freePage bmC4State 0 (.wrote 4) =
      (.Okay, BM.freeFinish bmC4State 0,
       some (BM.pageFileHeaderSize + ((bmC4State.frames 0).page_num % 65536) * bmC4State.page_size,
             (bmC4State.frames 0).data))
    ∧ (BM.freeFinish bmC4State 0).page_table (bmC4State.frames 0).page_num = none :=
  (c4_dirty_eviction_writeback bmC4State 0 (.wrote 4) (by decide) (by decide) rfl
    (by decide)).2.1 rfl rfl rfl 4 rfl (by decide)

/-- C9 counterexample: the claim says `unpin(page_id)` fails with
NotResident when the page is not resident and with AlreadyUnpinned when
the pin count is already 0.  The source's `BufferManager::unpin` returns
unit — both conditions are only logged — and `PageFileHandle::unpin_page`
consequently reports `Ok(())`: at the concrete non-resident input
(page 5) and the concrete already-unpinned input (page 7, frame 2,
pin count 0), no error reaches the caller and the state is unchanged. -/
theorem c9_unpin_never_fails :
    bmC9NotResident.page_table 5 = none
    ∧ BM.unpinPage bmC9NotResident 5 = (bmC9NotResident, .ok ())
    ∧ bmC9Unpinned.page_table 7 = some 2
    ∧ (bmC9Unpinned.frames 2).pin_count = 0
    ∧ BM.unpinPage bmC9Unpinned 7 = (bmC9Unpinned, .ok ()) :=
  ⟨rfl, rfl, rfl, rfl, rfl⟩

/-- C9 (amended): `unpin(page_id)` reports no error to its caller in any
case (`unpin_page` always returns `Ok`).  When the page is not resident,
or the resident frame's pin count is already 0, the state is unchanged
(the condition is only logged); otherwise the pin count is decremented
and, exactly when it reaches 0, the frame is inserted at the head of the
LRU list. -/
theorem c9_unpin_contract (st : BM.State) (p : Nat) :
    (st.page_table p = none →
      BM.unpin st p = st ∧ (BM.unpinPage st p).2 = .ok ())
    ∧ (∀ i, st.page_table p = some i → (st.frames i).pin_count = 0 →
      BM.unpin st p = st ∧ (BM.unpinPage st p).2 = .ok ())
    ∧ (∀ i, st.page_table p = some i → (st.frames i).pin_count = 1 →
      BM.unpin st p
        = BM.link { st with frames := upd st.frames i { st.frames i with pin_count := 0 } } i
      ∧ (BM.unpin st p).first = (i : Int))
    ∧ (∀ i, st.page_table p = some i → 2 ≤ (st.frames i).pin_count →
      BM.unpin st p
        = { st with frames := upd st.frames i { st.frames i with pin_count := (st.frames i).pin_count - 1 } }) := by
  refine ⟨?_, ?_, ?_, ?_⟩
  · intro h
    exact ⟨by simp [BM.unpin, h], rfl⟩
  · intro i h hpin
    exact ⟨by simp [BM.unpin, h, hpin], rfl⟩
  · intro i h hpin
    have hu : BM.unpin st p
        = BM.link { st with frames := upd st.frames i { st.frames i with pin_count := 0 } } i := by
      simp [BM.unpin, h, hpin]
    exact ⟨hu, by rw [hu, bm_link_first]⟩
  · intro i h hpin
    have h0 : ¬ (st.frames i).pin_count = 0 := by omega
    have h1 : ¬ (st.frames i).pin_count - 1 = 0 := by omega
    simp [BM.unpin, h, h0, h1]

/-- C9 witness for the amended contract: unpinning page 9 (frame 1, pin
count 1) decrements to 0 and links frame 1 at the LRU head. -/
theorem c9_unpin_contract_witness :
    BM.unpin bmC9Pinned 9
      = BM.link { bmC9Pinned with frames := upd bmC9Pinned.frames 1 { bmC9Pinned.frames 1 with pin_count := 0 } } 1
    ∧ (BM.unpin bmC9Pinned 9).first = (1 : Int) :=
  (c9_unpin_contract bmC9Pinned 9).2.2.1 1 rfl rfl

/-- C2: the code evaluated at the failing input — starting from a fresh
empty root leaf (`max_keys = 4`), `insert_entry(5)` then `insert_entry(3)`
(a new minimum) both succeed, but afterwards the occupied chain is `[1]`
and the free chain is `[2, 3]`: slot 0 is reachable from neither chain,
so the two chains' union is not `[0, max_keys)` (and `num_keys = 2`
disagrees with the chain length).  The leaf insert at
index_handle.rs lines 329-331 sets the new entry's `next_slot` to
`NO_MORE_SLOTS` instead of the old `first_slot`, orphaning the previous
chain when the new key becomes the minimum. -/
theorem c2_slot_partition_violated :
    exceptOk (IX.insertEntry ixC2Start 5 ⟨2, 0⟩ 50) = true
    ∧ exceptOk (IX.insertEntry c2State1 3 ⟨2, 1⟩ 50) = true
    ∧ ixDemoHdr.max_keys = 4
    ∧ c2Node.num_keys = 2
    ∧ IX.chainList c2Node c2Node.first_slot 10 = [1]
    ∧ IX.chainList c2Node c2Node.free_slot 10 = [2, 3] :=
  ⟨rfl, rfl, rfl, rfl, rfl, rfl⟩

/-- C3: the code evaluated at the failing input — the root (page 65537)
is a full, well-formed leaf (`num_keys = max_keys = 4`, chain
`0 → 1 → 2 → 3`, keys 10, 20, 30, 40) and `insert_entry(50)` is called.
Instead of completing the described root split, the call panics with an
out-of-bounds slice index inside `split_node`: the entry copy at
index_handle.rs line 588 overwrites `new_entries[curr_index2].next_slot`
before line 604 reads it to advance the cursor, so on the second moved
entry `curr_index2 = NO_MORE_SLOTS` indexes the entry slice.  The header's
`root_page` is never updated and no key is promoted. -/
theorem c3_root_split_panics :
    ixC3Start.getNode 65537 = .ok ixFullLeaf
    ∧ ixFullLeaf.num_keys = ixDemoHdr.max_keys
    ∧ IX.insertEntry ixC3Start 50 ⟨2, 5⟩ 100 = .error .PanicIndexOutOfBounds :=
  ⟨rfl, rfl, rfl⟩

end Arcturus
